import Mathlib

/-!
Verification of the Notion-to-static-website core against its source.

The definitions below are a shallow embedding of `src/lib/notion.ts`
(content cache and content client) and `src/components/NotionBlock.tsx`
(rich-text renderer and block-list grouper).  Instants and durations are
modelled as rationals (the source works with millisecond numbers), JS
`undefined`/`null` as `Option`, thrown exceptions as `Except`, and the
module-level mutable cache object as an explicit association list that is
threaded through each operation.  The injected asynchronous fetch function
is modelled by the outcome (`Except`) its next invocation would produce;
the detached background refresh of the cache is modelled by a flag
recording whether it was triggered, since its completion happens after the
lookup returns and never influences the lookup's own result.
-/

namespace NotionSite

/-- Mirror of the `CacheConfig` type: `ttl` in milliseconds and
`refreshThreshold`, a fraction of the ttl. -/
structure CacheConfig where
  ttl : ℚ
  refreshThreshold : ℚ
deriving Repr, DecidableEq

/-- Mirror of the `CacheItem<T>` interface of `src/lib/notion.ts`
(`data`, `timestamp`, `expiresAt`). -/
structure CacheItem (T : Type) where
  data : T
  timestamp : ℚ
  expiresAt : ℚ
deriving Repr, DecidableEq

/-- Mirror of `DEFAULT_CACHE_CONFIG`: 5 minutes ttl, 0.8 refresh threshold. -/
def DEFAULT_CACHE_CONFIG : CacheConfig :=
  ⟨5 * 60 * 1000, 8 / 10⟩

/-- The module-level `cache: Record<string, CacheItem<unknown>>`, restricted to
the value type of one operation family and made explicit as an association
list from keys to entries (one entry per key). -/
abbrev CacheState (T : Type) := List (String × CacheItem T)

/-- Reading `cache[key]`. -/
def lookupKey {T : Type} (cache : CacheState T) (key : String) : Option (CacheItem T) :=
  (cache.find? (fun kv => kv.1 == key)).map (fun kv => kv.2)

/-- Writing `cache[key] = item` (wholesale replacement of the entry). -/
def setKey {T : Type} (cache : CacheState T) (key : String) (item : CacheItem T) : CacheState T :=
  (key, item) :: cache.filter (fun kv => kv.1 != key)

/-- JS `String.prototype.startsWith`, stated on the character lists of the
strings (extensionally the same test). -/
def jsStartsWith (s pre : String) : Bool :=
  pre.toList.isPrefixOf s.toList

/-- Mirror of `clearCache(keyPrefix?)`: with a truthy argument, delete exactly
the keys starting with it; otherwise (absent argument, or the falsy empty
string) delete every key. -/
def clearCache {T : Type} (keyPre : Option String) (cache : CacheState T) : CacheState T :=
  match keyPre with
  | some p => if p = "" then [] else cache.filter (fun kv => !(jsStartsWith kv.1 p))
  | none => []

/-- Everything the synchronous part of one `getFromCacheOrFetch` call
produces: the value returned (or the error thrown), the cache state at the
moment of return, whether the injected fetch function was awaited
synchronously, and whether a detached background refresh was started. -/
structure LookupOutcome (ε T : Type) where
  result : Except ε T
  cache : CacheState T
  syncFetchInvoked : Bool
  bgRefreshTriggered : Bool
deriving Repr

/-- Mirror of `getFromCacheOrFetch` (src/lib/notion.ts lines 113-170).
`fetchResult` is the outcome the injected `fetchFn` produces when invoked.
With a cached entry that is still fresh (`now < expiresAt`) the stored data
is returned at once and, when the entry has outlived
`timestamp + ttl * (refreshThreshold || 0.8)`, a detached refresh is
started whose own success or failure cannot reach this call.  Otherwise the
fetch is awaited: on success the entry is replaced wholesale and the fresh
data returned; on failure an existing (expired) entry is returned as a
degraded fallback, and only in the absence of any entry is the error
re-thrown. -/
def getFromCacheOrFetch {ε T : Type} (now : ℚ) (key : String) (cache : CacheState T)
    (fetchResult : Except ε T) (config : CacheConfig) : LookupOutcome ε T :=
  match lookupKey cache key with
  | some cachedItem =>
    if now < cachedItem.expiresAt then
      { result := .ok cachedItem.data
        cache := cache
        syncFetchInvoked := false
        bgRefreshTriggered :=
          decide (now > cachedItem.timestamp +
            config.ttl * (if config.refreshThreshold = 0 then 8 / 10 else config.refreshThreshold)) }
    else
      match fetchResult with
      | .ok data => ⟨.ok data, setKey cache key ⟨data, now, now + config.ttl⟩, true, false⟩
      | .error _ => ⟨.ok cachedItem.data, cache, true, false⟩
  | none =>
    match fetchResult with
    | .ok data => ⟨.ok data, setKey cache key ⟨data, now, now + config.ttl⟩, true, false⟩
    | .error e => ⟨.error e, cache, true, false⟩

theorem lookupKey_setKey_self {T : Type} (cache : CacheState T) (key : String)
    (item : CacheItem T) : lookupKey (setKey cache key item) key = some item := by
  simp [lookupKey, setKey, List.find?]

theorem find?_filter_ne_key {T : Type} (cache : CacheState T) (key k : String) (hk : k ≠ key) :
    (cache.filter (fun kv => kv.1 != key)).find? (fun kv => kv.1 == k) =
      cache.find? (fun kv => kv.1 == k) := by
  induction cache with
  | nil => rfl
  | cons kv rest ih =>
    by_cases h : kv.1 = k
    · have hkeep : (kv.1 != key) = true := by simp [h, hk]
      have hfound : (kv.1 == k) = true := by simp [h]
      simp [List.filter_cons, List.find?_cons, hkeep, hfound]
    · by_cases h2 : kv.1 = key
      · have hdrop : (kv.1 != key) = false := by simp [h2]
        have hmiss : (kv.1 == k) = false := by simp [h]
        simp [List.filter_cons, List.find?_cons, hdrop, hmiss, ih]
      · have hkeep : (kv.1 != key) = true := by simp [h2]
        have hmiss : (kv.1 == k) = false := by simp [h]
        simp [List.filter_cons, List.find?_cons, hkeep, hmiss, ih]

theorem lookupKey_setKey_other {T : Type} (cache : CacheState T) (key k : String)
    (item : CacheItem T) (hk : k ≠ key) :
    lookupKey (setKey cache key item) k = lookupKey cache k := by
  simp only [lookupKey, setKey]
  rw [List.find?_cons_of_neg, find?_filter_ne_key cache key k hk]
  simp [Ne.symm hk]

theorem lookupKey_clearCache_removed {T : Type} (cache : CacheState T) (p key : String)
    (hp : jsStartsWith key p = true) :
    lookupKey (clearCache (some p) cache) key = none := by
  by_cases hemp : p = ""
  · simp [clearCache, hemp, lookupKey]
  · simp only [clearCache, hemp, if_false, lookupKey]
    have hfind : (cache.filter (fun kv => !(jsStartsWith kv.1 p))).find?
        (fun kv => kv.1 == key) = none := by
      rw [List.find?_eq_none]
      intro kv hkv hbeq
      have hmem := List.mem_filter.mp hkv
      have hkk : kv.1 = key := eq_of_beq hbeq
      have := hmem.2
      rw [hkk, hp] at this
      simp at this
    rw [hfind]
    rfl

/-- C1: for a key holding an entry that is still fresh (`now < expiresAt`),
`getFromCacheOrFetch` returns the stored data without synchronously awaiting
the injected fetch (and hence independently of the fetch outcome, so a
background-refresh failure never reaches the caller), leaves the entry in
place, and triggers the background refresh exactly when
`now > storedAt + ttl * refreshThreshold` (the threshold being a fraction in
(0,1], hence nonzero). -/
theorem getFromCacheOrFetch_fresh_hit {ε T : Type} (now : ℚ) (key : String)
    (cache : CacheState T) (item : CacheItem T) (fetchResult : Except ε T)
    (config : CacheConfig)
    (hitem : lookupKey cache key = some item)
    (hfresh : now < item.expiresAt)
    (hrt : config.refreshThreshold ≠ 0) :
    (getFromCacheOrFetch now key cache fetchResult config).result = .ok item.data ∧
    (getFromCacheOrFetch now key cache fetchResult config).syncFetchInvoked = false ∧
    (getFromCacheOrFetch now key cache fetchResult config).cache = cache ∧
    ((getFromCacheOrFetch now key cache fetchResult config).bgRefreshTriggered = true ↔
      now > item.timestamp + config.ttl * config.refreshThreshold) := by
  simp [getFromCacheOrFetch, hitem, hfresh, hrt]

/-- Closed instance of the fresh-hit theorem: entry stored at 0 with ttl 100
and threshold 1/2, looked up at time 90 with a fetch that would fail; the
stored value 7 is returned, the fetch is not awaited, and the background
refresh fires since 90 > 0 + 100 * (1/2). -/
theorem getFromCacheOrFetch_fresh_hit_witness :
    (getFromCacheOrFetch (ε := Unit) 90 "k" [("k", ⟨7, 0, 100⟩)] (.error ()) ⟨100, 1/2⟩).result
        = .ok 7 ∧
    (getFromCacheOrFetch (ε := Unit) 90 "k" [("k", ⟨7, 0, 100⟩)] (.error ())
        ⟨100, 1/2⟩).syncFetchInvoked = false ∧
    (getFromCacheOrFetch (ε := Unit) 90 "k" [("k", ⟨7, 0, 100⟩)] (.error ())
        ⟨100, 1/2⟩).bgRefreshTriggered = true := by
  have h := getFromCacheOrFetch_fresh_hit (ε := Unit) 90 "k" [("k", ⟨7, 0, 100⟩)]
    ⟨7, 0, 100⟩ (.error ()) ⟨100, 1/2⟩ (by decide) (by norm_num) (by norm_num)
  exact ⟨h.1, h.2.1, h.2.2.2.mpr (by norm_num)⟩

/-- C2: for a key whose entry is expired (`now ≥ expiresAt`) the fetch is
awaited synchronously; on success the entry is replaced wholesale and the
fresh data returned, on failure the expired entry's data is returned instead
of throwing; with no prior entry (in particular after `clearCache` removed
the key, which the last conjunct shows) a fetch failure propagates. -/
theorem getFromCacheOrFetch_expired_policy {ε T : Type} (now : ℚ) (key : String)
    (cache : CacheState T) (config : CacheConfig) :
    (∀ item : CacheItem T, lookupKey cache key = some item → item.expiresAt ≤ now →
      (∀ d : T,
        (getFromCacheOrFetch (ε := ε) now key cache (Except.ok d) config).syncFetchInvoked = true ∧
        (getFromCacheOrFetch (ε := ε) now key cache (Except.ok d) config).result = .ok d ∧
        lookupKey (getFromCacheOrFetch (ε := ε) now key cache (Except.ok d) config).cache key =
          some ⟨d, now, now + config.ttl⟩) ∧
      (∀ e : ε,
        (getFromCacheOrFetch now key cache (Except.error e) config).syncFetchInvoked = true ∧
        (getFromCacheOrFetch now key cache (Except.error e) config).result = .ok item.data)) ∧
    (lookupKey cache key = none → ∀ e : ε,
      (getFromCacheOrFetch now key cache (Except.error e) config).result = .error e) ∧
    (∀ p : String, jsStartsWith key p = true →
      lookupKey (clearCache (some p) cache) key = none) := by
  refine ⟨fun item hitem hexp => ?_, fun hnone e => ?_, fun p hp => ?_⟩
  · have hstale : ¬ now < item.expiresAt := not_lt.mpr hexp
    refine ⟨fun d => ?_, fun e => ?_⟩
    · refine ⟨?_, ?_, ?_⟩
      · simp [getFromCacheOrFetch, hitem, hstale]
      · simp [getFromCacheOrFetch, hitem, hstale]
      · have hc : (getFromCacheOrFetch (ε := ε) now key cache (Except.ok d) config).cache =
            setKey cache key ⟨d, now, now + config.ttl⟩ := by
          simp [getFromCacheOrFetch, hitem, hstale]
        rw [hc]
        exact lookupKey_setKey_self cache key _
    · constructor <;> simp [getFromCacheOrFetch, hitem, hstale]
  · simp [getFromCacheOrFetch, hnone]
  · exact lookupKey_clearCache_removed cache p key hp

/-- Closed instance of the expired-entry policy: entry ⟨7, 0, 100⟩ looked up
at time 200.  A successful fetch of 5 replaces the entry and returns 5,
a failing fetch falls back to the stored 7, a failing fetch on an empty
cache propagates, and after a prefix clear the key is gone. -/
theorem getFromCacheOrFetch_expired_policy_witness :
    (getFromCacheOrFetch (ε := Unit) 200 "k" [("k", ⟨7, 0, 100⟩)] (.ok 5) ⟨100, 1/2⟩).result
        = .ok 5 ∧
    (getFromCacheOrFetch (ε := Unit) 200 "k" [("k", ⟨7, 0, 100⟩)] (.error ()) ⟨100, 1/2⟩).result
        = .ok 7 ∧
    (getFromCacheOrFetch (ε := Unit) 200 "k" ([] : CacheState ℕ) (.error ()) ⟨100, 1/2⟩).result
        = .error () ∧
    lookupKey (clearCache (some "pa") [("page:1", (⟨7, 0, 100⟩ : CacheItem ℕ))]) "page:1"
        = none := by
  have h := getFromCacheOrFetch_expired_policy (ε := Unit) 200 "k"
    [("k", (⟨7, 0, 100⟩ : CacheItem ℕ))] ⟨100, 1/2⟩
  have h2 := getFromCacheOrFetch_expired_policy (ε := Unit) 200 "k" ([] : CacheState ℕ)
    ⟨100, 1/2⟩
  have h3 := getFromCacheOrFetch_expired_policy (ε := Unit) 200 "page:1"
    [("page:1", (⟨7, 0, 100⟩ : CacheItem ℕ))] ⟨100, 1/2⟩
  have hmain := h.1 ⟨7, 0, 100⟩ (by decide) (by norm_num)
  exact ⟨(hmain.1 5).2.1, (hmain.2 ()).2, h2.2.1 (by decide) (), h3.2.2 "pa" (by decide)⟩

/-- One content block as the grouper and the pagination loop see it: the
`type` discriminant, the opaque `id`, and the `has_children` flag of
`NotionBlockWithChildren`.  The variant payloads and resolved children are
carried by fields none of the modelled operations inspect, so they are not
represented. -/
structure NotionBlockWithChildren where
  id : String
  type : String
  has_children : Bool
deriving Repr, DecidableEq

/-- The two list-container tags `'ul' | 'ol'` of `groupBlocks`. -/
inductive ListTag where
  | ul
  | ol
deriving Repr, DecidableEq

/-- One element of the `groupedBlocks` array that `groupBlocks` builds: the
empty-state paragraph, a `<ul>`/`<ol>` container holding a run of list-item
blocks, or a standalone rendered block. -/
inductive RenderUnit where
  | emptyState
  | listContainer (tag : ListTag) (items : List NotionBlockWithChildren)
  | blockUnit (b : NotionBlockWithChildren)
deriving Repr, DecidableEq

/-- The test on src/components/NotionBlock.tsx line 786: is this block a
bulleted or numbered list item? -/
def isListItem (b : NotionBlockWithChildren) : Bool :=
  b.type == "bulleted_list_item" || b.type == "numbered_list_item"

/-- Line 788: the run tag a list-item block starts or extends. -/
def newListTypeOf (b : NotionBlockWithChildren) : ListTag :=
  if b.type == "bulleted_list_item" then .ul else .ol

/-- The tag chosen when flushing: `currentListType === 'ul' ? 'ul' : 'ol'`
(so a `null` current type also yields `'ol'`, exactly as the ternary does). -/
def flushTag : Option ListTag → ListTag
  | some .ul => .ul
  | _ => .ol

/-- The `blocks.forEach` loop of `groupBlocks` (lines 785-825) together with
the final flush (lines 828-835), with the three mutable locals
(`groupedBlocks`, `currentListItems`, `currentListType`) passed explicitly. -/
def groupBlocksGo : List NotionBlockWithChildren → List RenderUnit →
    List NotionBlockWithChildren → Option ListTag → List RenderUnit
  | [], acc, items, ctype =>
    if items.isEmpty then acc else acc ++ [.listContainer (flushTag ctype) items]
  | b :: rest, acc, items, ctype =>
    if isListItem b then
      if ctype = some (newListTypeOf b) then
        groupBlocksGo rest acc (items ++ [b]) ctype
      else
        if items.isEmpty then
          groupBlocksGo rest acc [b] (some (newListTypeOf b))
        else
          groupBlocksGo rest (acc ++ [.listContainer (flushTag ctype) items]) [b]
            (some (newListTypeOf b))
    else
      if items.isEmpty then
        groupBlocksGo rest (acc ++ [.blockUnit b]) items ctype
      else
        groupBlocksGo rest
          (acc ++ [.listContainer (flushTag ctype) items, .blockUnit b]) [] none

/-- Mirror of `groupBlocks` (lines 771-838): empty input yields the single
"no content" unit, otherwise the scan above starting from empty state. -/
def groupBlocks (blocks : List NotionBlockWithChildren) : List RenderUnit :=
  if blocks.isEmpty then [.emptyState] else groupBlocksGo blocks [] [] none

/-- Two render units are offending neighbours when both are list containers
of the same list kind. -/
def sameKindContainers : RenderUnit → RenderUnit → Bool
  | .listContainer t _, .listContainer s _ => t == s
  | _, _ => false

theorem sameKindContainers_blockUnit (u : RenderUnit) (b : NotionBlockWithChildren) :
    sameKindContainers u (.blockUnit b) = false := by
  cases u <;> rfl

theorem sameKindContainers_container_of_ne (u : RenderUnit) (tag : ListTag)
    (ys : List NotionBlockWithChildren) (h : ∀ xs, u ≠ .listContainer tag xs) :
    sameKindContainers u (.listContainer tag ys) = false := by
  cases u with
  | emptyState => rfl
  | blockUnit b => rfl
  | listContainer s xs =>
    have hs : s ≠ tag := fun hst => h xs (by rw [hst])
    simpa [sameKindContainers] using hs

theorem chain'_append_one {R : RenderUnit → RenderUnit → Prop} (l : List RenderUnit)
    (u : RenderUnit) (hl : List.Chain' R l) (hlast : ∀ x ∈ l.getLast?, R x u) :
    List.Chain' R (l ++ [u]) :=
  List.chain'_append.mpr ⟨hl, List.chain'_singleton u,
    fun x hx y hy => by
      simp only [List.head?] at hy
      cases hy
      exact hlast x hx⟩

theorem chain'_append_two {R : RenderUnit → RenderUnit → Prop} (l : List RenderUnit)
    (u v : RenderUnit) (hl : List.Chain' R l) (huv : R u v)
    (hlast : ∀ x ∈ l.getLast?, R x u) :
    List.Chain' R (l ++ [u, v]) :=
  List.chain'_append.mpr ⟨hl, List.chain'_cons.mpr ⟨huv, List.chain'_singleton v⟩,
    fun x hx y hy => by
      simp only [List.head?] at hy
      cases hy
      exact hlast x hx⟩

theorem flushTag_some (t : ListTag) : flushTag (some t) = t := by
  cases t <;> rfl

theorem groupBlocksGo_chain (blocks : List NotionBlockWithChildren) :
    ∀ (acc : List RenderUnit) (items : List NotionBlockWithChildren) (ctype : Option ListTag),
    List.Chain' (fun u v => sameKindContainers u v = false) acc →
    (items = [] ↔ ctype = none) →
    (items ≠ [] → ∀ xs, acc.getLast? ≠ some (.listContainer (flushTag ctype) xs)) →
    (items = [] → ∀ t xs, acc.getLast? ≠ some (.listContainer t xs)) →
    List.Chain' (fun u v => sameKindContainers u v = false) (groupBlocksGo blocks acc items ctype) := by
  induction blocks with
  | nil =>
    intro acc items ctype hchain hiff h3 h4
    by_cases hi : items = []
    · simpa [groupBlocksGo, hi] using hchain
    · have hne : items.isEmpty = false := by
        cases items with
        | nil => exact absurd rfl hi
        | cons x xs => rfl
      rw [groupBlocksGo, if_neg (by simp [hne])]
      refine chain'_append_one acc _ hchain fun x hx => ?_
      refine sameKindContainers_container_of_ne x (flushTag ctype) items fun xs hxeq => ?_
      exact h3 hi xs (by rw [Option.mem_def.mp hx, hxeq])
  | cons b rest ih =>
    intro acc items ctype hchain hiff h3 h4
    rw [groupBlocksGo]
    by_cases hb : isListItem b = true
    · rw [if_pos hb]
      by_cases hct : ctype = some (newListTypeOf b)
      · rw [if_pos hct]
        have hitems : items ≠ [] := by
          intro hi
          rw [hiff.mp hi] at hct
          exact Option.noConfusion hct
        refine ih acc (items ++ [b]) ctype hchain ?_ ?_ ?_
        · constructor
          · intro habs
            exact absurd habs (by simp)
          · intro hnone
            rw [hnone] at hct
            exact absurd hct (by simp)
        · intro _ xs
          exact h3 hitems xs
        · intro habs
          exact absurd habs (by simp)
      · rw [if_neg hct]
        by_cases hi : items = []
        · rw [if_pos (by simp [hi])]
          refine ih acc [b] (some (newListTypeOf b)) hchain ?_ ?_ ?_
          · constructor
            · intro habs
              exact absurd habs (by simp)
            · intro hnone
              exact Option.noConfusion hnone
          · intro _ xs
            exact h4 hi (flushTag (some (newListTypeOf b))) xs
          · intro habs
            exact absurd habs (by simp)
        · have hne : items.isEmpty = false := by
            cases items with
            | nil => exact absurd rfl hi
            | cons x xs => rfl
          rw [if_neg (by simp [hne])]
          obtain ⟨t, ht⟩ : ∃ t, ctype = some t := by
            cases hc : ctype with
            | none => exact absurd (hiff.mpr hc) hi
            | some t => exact ⟨t, rfl⟩
          have htag : flushTag ctype = t := by rw [ht, flushTag_some]
          have htne : t ≠ newListTypeOf b := by
            intro htt
            rw [ht, htt] at hct
            exact hct rfl
          refine ih (acc ++ [.listContainer (flushTag ctype) items]) [b]
            (some (newListTypeOf b)) ?_ ?_ ?_ ?_
          · refine chain'_append_one acc _ hchain fun x hx => ?_
            refine sameKindContainers_container_of_ne x (flushTag ctype) items fun xs hxeq => ?_
            exact h3 hi xs (by rw [Option.mem_def.mp hx, hxeq])
          · constructor
            · intro habs
              exact absurd habs (by simp)
            · intro hnone
              exact Option.noConfusion hnone
          · intro _ xs
            rw [List.getLast?_append_of_ne_nil acc (by simp), flushTag_some]
            intro habs
            have h1 : RenderUnit.listContainer (flushTag ctype) items =
                RenderUnit.listContainer (newListTypeOf b) xs := by
              simpa using habs
            have h2 : flushTag ctype = newListTypeOf b := by
              injection h1
            rw [htag] at h2
            exact htne h2
          · intro habs
            exact absurd habs (by simp)
    · rw [if_neg hb]
      by_cases hi : items = []
      · rw [if_pos (by simp [hi])]
        refine ih (acc ++ [.blockUnit b]) items ctype ?_ hiff ?_ ?_
        · exact chain'_append_one acc _ hchain fun x _ => sameKindContainers_blockUnit x b
        · intro hni
          exact absurd hi hni
        · intro _ t xs
          rw [List.getLast?_append_of_ne_nil acc (by simp)]
          intro habs
          simp at habs
      · have hne : items.isEmpty = false := by
          cases items with
          | nil => exact absurd rfl hi
          | cons x xs => rfl
        rw [if_neg (by simp [hne])]
        refine ih (acc ++ [.listContainer (flushTag ctype) items, .blockUnit b]) [] none ?_ ?_ ?_ ?_
        · refine chain'_append_two acc _ _ hchain (sameKindContainers_blockUnit _ b)
            fun x hx => ?_
          refine sameKindContainers_container_of_ne x (flushTag ctype) items fun xs hxeq => ?_
          exact h3 hi xs (by rw [Option.mem_def.mp hx, hxeq])
        · exact ⟨fun _ => rfl, fun _ => rfl⟩
        · intro habs
          exact absurd rfl habs
        · intro _ t xs
          rw [List.getLast?_append_of_ne_nil acc (by simp)]
          intro habs
          simp at habs

/-- C3: the grouper never emits two adjacent list containers of the same
list kind — along the output of `groupBlocks`, every pair of neighbouring
units fails the `sameKindContainers` test. -/
theorem groupBlocks_no_adjacent_same_kind (blocks : List NotionBlockWithChildren) :
    List.Chain' (fun u v => sameKindContainers u v = false) (groupBlocks blocks) := by
  by_cases hb : blocks = []
  · rw [groupBlocks, if_pos (by simp [hb])]
    exact List.chain'_singleton _
  · have hne : blocks.isEmpty = false := by
      cases blocks with
      | nil => exact absurd rfl hb
      | cons x xs => rfl
    rw [groupBlocks, if_neg (by simp [hne])]
    refine groupBlocksGo_chain blocks [] [] none List.chain'_nil
      ⟨fun _ => rfl, fun _ => rfl⟩ (fun habs => absurd rfl habs) ?_
    intro _ t xs
    simp

/-- C4: grouping the three-block sequence
[bulleted "a", bulleted "b", numbered "c"] produces exactly 2 render units:
one unordered-list container with the two bulleted items in input order,
then one ordered-list container with the single numbered item. -/
theorem groupBlocks_example_two_units :
    groupBlocks
      [⟨"a", "bulleted_list_item", false⟩, ⟨"b", "bulleted_list_item", false⟩,
        ⟨"c", "numbered_list_item", false⟩] =
    [.listContainer .ul
        [⟨"a", "bulleted_list_item", false⟩, ⟨"b", "bulleted_list_item", false⟩],
      .listContainer .ol [⟨"c", "numbered_list_item", false⟩]] := by
  decide

/-- JS truthiness of a possibly-absent boolean (`undefined` is falsy). -/
def jsTruthyB : Option Bool → Bool
  | some b => b
  | none => false

/-- JS truthiness of a possibly-absent string (`undefined`, `null` and the
empty string are falsy). -/
def jsTruthyS : Option String → Bool
  | some s => s != ""
  | none => false

/-- Occurrence of `sub` as a contiguous run inside `l`
(JS `String.prototype.includes` on character lists). -/
def includesAux (sub : List Char) : List Char → Bool
  | [] => sub.isEmpty
  | c :: rest => sub.isPrefixOf (c :: rest) || includesAux sub rest

/-- JS `s.includes(sub)`. -/
def strIncludes (s sub : String) : Bool :=
  includesAux sub.toList s.toList

/-- The `annotations` object of a rich-text span; every field is optional so
that malformed spans (e.g. `annotations: {}` as in the repository's tests)
are representable. -/
structure Annotations where
  bold : Option Bool
  italic : Option Bool
  strikethrough : Option Bool
  underline : Option Bool
  code : Option Bool
  color : Option String
deriving Repr, DecidableEq

/-- A rich-text span as the renderer reads it (`RichTextItem`): the span
`type`, the plain text, the annotations object — `none` models a span where
the object itself is absent, which the claim's input space includes — and
the optional `href`. -/
structure RichTextItem where
  type : String
  plain_text : String
  annotations : Option Annotations
  href : Option String
deriving Repr, DecidableEq

/-- Mirror of `getStyleClasses` (src/components/NotionBlock.tsx lines
151-170): a truthy non-default color contributes either a background class
combination (when the color name contains `_background`) or a foreground
text class; a span of type `code` additionally contributes the inline-code
classes; the collected classes are joined with single spaces. -/
def getStyleClasses (a : Annotations) (ty : String) : String :=
  let colorClasses : List String :=
    match a.color with
    | some c =>
      if c != "" && c != "default" then
        if strIncludes c "_background" then
          ["bg-" ++ c.replace "_background" "" ++ "-100 text-" ++
            c.replace "_background" "" ++ "-800 px-1 rounded"]
        else
          ["text-" ++ c ++ "-500"]
      else []
    | none => []
  let codeClasses : List String :=
    if ty == "code" then ["bg-gray-100 p-1 rounded font-mono text-sm"] else []
  String.intercalate " " (colorClasses ++ codeClasses)

/-- The markup tree a single span renders to: raw text, the five inline
style wrappers, a hyperlink, or the default class-carrying span. -/
inductive MarkupNode where
  | text (s : String)
  | codeTag (cls : String) (child : MarkupNode)
  | strong (child : MarkupNode)
  | em (child : MarkupNode)
  | del (child : MarkupNode)
  | u (child : MarkupNode)
  | anchor (href cls target rel : String) (child : MarkupNode)
  | span (cls : Option String) (child : MarkupNode)
deriving Repr, DecidableEq

/-- The inner style application of `RichText` (lines 192-214): starting from
the plain text, wrap with `<code>` if `code`, then `<strong>` if `bold`,
then `<em>` if `italic`, then `<del>` if `strikethrough`, then `<u>` if
`underline` — later wrappers are applied outside earlier ones. -/
def styledContent (plain : String) (a : Annotations) : MarkupNode :=
  let c0 := MarkupNode.text plain
  let c1 := if jsTruthyB a.code then
    MarkupNode.codeTag "font-mono text-sm bg-gray-100 p-1 rounded" c0 else c0
  let c2 := if jsTruthyB a.bold then MarkupNode.strong c1 else c1
  let c3 := if jsTruthyB a.italic then MarkupNode.em c2 else c2
  let c4 := if jsTruthyB a.strikethrough then MarkupNode.del c3 else c3
  if jsTruthyB a.underline then MarkupNode.u c4 else c4

/-- Rendering of one span by `RichText` (lines 184-235).  The destructuring
`const { bold, italic, strikethrough, underline, code } = annotations` on
line 186 throws a TypeError when the annotations object is absent, which the
`.error` branch records.  A truthy `href` wraps the styled content in an
anchor with `target="_blank"` and `rel="noopener noreferrer"`; otherwise the
styled content sits in a span whose class is the style string when non-empty
(`styleClass || undefined`). -/
def renderSpan (t : RichTextItem) : Except String MarkupNode :=
  match t.annotations with
  | none => .error "TypeError: cannot destructure annotations of undefined"
  | some a =>
    let styleClass := getStyleClasses a t.type
    let content := styledContent t.plain_text a
    match t.href with
    | some h =>
      if h != "" then
        .ok (.anchor h ("text-blue-500 hover:underline " ++ styleClass) "_blank"
          "noopener noreferrer" content)
      else
        .ok (.span (if styleClass == "" then none else some styleClass) content)
    | none => .ok (.span (if styleClass == "" then none else some styleClass) content)

/-- Mirror of the `RichText` component boundary (lines 177-181): absent or
empty input renders nothing (`null`), otherwise every span is rendered in
order, a thrown TypeError aborting the whole map. -/
def renderRichText (richText : Option (List RichTextItem)) :
    Option (Except String (List MarkupNode)) :=
  match richText with
  | none => none
  | some items => if items.isEmpty then none else some (items.mapM renderSpan)

/-- Names for the five inline style wrappers, used to state nesting order. -/
inductive StyleTag where
  | codeW
  | boldW
  | italicW
  | strikeW
  | underlineW
deriving Repr, DecidableEq

/-- The sequence of style wrappers around a node from outermost to
innermost, together with the first non-wrapper node reached. -/
def wrapperChain : MarkupNode → List StyleTag × MarkupNode
  | .codeTag _ child => (StyleTag.codeW :: (wrapperChain child).1, (wrapperChain child).2)
  | .strong child => (StyleTag.boldW :: (wrapperChain child).1, (wrapperChain child).2)
  | .em child => (StyleTag.italicW :: (wrapperChain child).1, (wrapperChain child).2)
  | .del child => (StyleTag.strikeW :: (wrapperChain child).1, (wrapperChain child).2)
  | .u child => (StyleTag.underlineW :: (wrapperChain child).1, (wrapperChain child).2)
  | n => ([], n)

/-- The wrapper order the specification prescribes, outermost first:
underline, strikethrough, italic, bold, code — each present exactly when the
corresponding annotation flag is truthy. -/
def specStyleOrder (a : Annotations) : List StyleTag :=
  (if jsTruthyB a.underline then [StyleTag.underlineW] else []) ++
  (if jsTruthyB a.strikethrough then [StyleTag.strikeW] else []) ++
  (if jsTruthyB a.italic then [StyleTag.italicW] else []) ++
  (if jsTruthyB a.bold then [StyleTag.boldW] else []) ++
  (if jsTruthyB a.code then [StyleTag.codeW] else [])

theorem wrapperChain_styledContent (p : String) (a : Annotations) :
    wrapperChain (styledContent p a) = (specStyleOrder a, .text p) := by
  cases hc : jsTruthyB a.code <;> cases hb : jsTruthyB a.bold <;>
    cases hi : jsTruthyB a.italic <;> cases hs : jsTruthyB a.strikethrough <;>
    cases hu : jsTruthyB a.underline <;>
    simp [styledContent, specStyleOrder, wrapperChain, hc, hb, hi, hs, hu]

/-- C5 counterexample: the span below has `href` present (`some ""`), yet it
is rendered as a plain span with no hyperlink — the renderer tests JS
truthiness of `href`, so a present-but-empty href produces no anchor,
falsifying the claim as stated. -/
theorem renderSpan_empty_href_no_link :
    (⟨"text", "x", some ⟨some true, none, none, none, none, some "default"⟩,
        some ""⟩ : RichTextItem).href.isSome = true ∧
    renderSpan ⟨"text", "x", some ⟨some true, none, none, none, none, some "default"⟩,
        some ""⟩ = .ok (.span none (.strong (.text "x"))) := by
  exact ⟨rfl, rfl⟩

/-- C5 (amended): for every span whose annotations object is present, the
inline style wrappers nest in the fixed order code (innermost), then bold,
italic, strikethrough, underline (outermost) around the plain text; whenever
`href` is present and non-empty, the fully styled content is wrapped in a
hyperlink opening in a new browsing context (`_blank`) with
no-opener/no-referrer semantics; a span with absent or empty `href` is
emitted without a hyperlink. -/
theorem renderSpan_style_order_and_link (t : RichTextItem) (a : Annotations)
    (ha : t.annotations = some a) :
    wrapperChain (styledContent t.plain_text a) = (specStyleOrder a, .text t.plain_text) ∧
    (∀ h : String, t.href = some h → h ≠ "" →
      renderSpan t = .ok (.anchor h
        ("text-blue-500 hover:underline " ++ getStyleClasses a t.type) "_blank"
        "noopener noreferrer" (styledContent t.plain_text a))) ∧
    (t.href = none ∨ t.href = some "" →
      renderSpan t = .ok (.span
        (if getStyleClasses a t.type == "" then none else some (getStyleClasses a t.type))
        (styledContent t.plain_text a))) := by
  refine ⟨wrapperChain_styledContent t.plain_text a, fun h hh hne => ?_, fun hcase => ?_⟩
  · rw [renderSpan, ha, hh]
    simp [hne]
  · rcases hcase with hnone | hempty
    · rw [renderSpan, ha, hnone]
    · rw [renderSpan, ha, hempty]
      simp

/-- Closed instance of the amended C5 theorem: a bold+code span with a
non-empty href renders as an anchor with the prescribed target and rel
around `<strong><code>…</code></strong>`. -/
theorem renderSpan_style_order_and_link_witness :
    renderSpan ⟨"text", "hi", some ⟨some true, none, none, none, some true, some "default"⟩,
        some "https://e"⟩ =
      .ok (.anchor "https://e" "text-blue-500 hover:underline " "_blank" "noopener noreferrer"
        (.strong (.codeTag "font-mono text-sm bg-gray-100 p-1 rounded" (.text "hi")))) := by
  have h := (renderSpan_style_order_and_link
    ⟨"text", "hi", some ⟨some true, none, none, none, some true, some "default"⟩,
      some "https://e"⟩
    ⟨some true, none, none, none, some true, some "default"⟩ rfl).2.1 "https://e" rfl
    (by decide)
  rw [h]
  rfl

/-- C6 counterexample: a span whose annotations object is absent makes the
renderer throw (the destructuring on line 186 raises a TypeError), so the
renderer does not degrade gracefully on an input sequence containing a span
with absent annotations, falsifying the claim as stated. -/
theorem renderRichText_absent_annotations_throws :
    renderRichText (some [⟨"text", "x", none, none⟩]) =
      some (.error "TypeError: cannot destructure annotations of undefined") := by
  rfl

/-- C6 (amended): on every input sequence all of whose spans carry an
annotations object — including malformed objects with every field absent —
the renderer is a total pure function: rendering always succeeds, and a span
whose annotation fields are all absent degrades to no styling at all (a bare
class-less span around the plain text). -/
theorem renderRichText_total_of_annotations_present :
    (∀ items : List RichTextItem, (∀ t ∈ items, t.annotations.isSome = true) →
      ∃ ns : List MarkupNode, items.mapM renderSpan = .ok ns) ∧
    (∀ p : String,
      renderSpan ⟨"text", p, some ⟨none, none, none, none, none, none⟩, none⟩ =
        .ok (.span none (.text p))) := by
  constructor
  · intro items hall
    induction items with
    | nil => exact ⟨[], rfl⟩
    | cons t rest ih =>
      obtain ⟨a, ha⟩ : ∃ a, t.annotations = some a := by
        have := hall t (by simp)
        cases hta : t.annotations with
        | none => rw [hta] at this; exact absurd this (by simp)
        | some a => exact ⟨a, rfl⟩
      obtain ⟨ns, hns⟩ := ih fun x hx => hall x (by simp [hx])
      have hok : ∃ n, renderSpan t = .ok n := by
        rw [renderSpan, ha]
        cases t.href with
        | none => exact ⟨_, rfl⟩
        | some h =>
          by_cases hh : (h != "") = true
          · simp only [hh]
            exact ⟨_, rfl⟩
          · simp only [Bool.not_eq_true] at hh
            simp only [hh]
            exact ⟨_, rfl⟩
      obtain ⟨n, hn⟩ := hok
      refine ⟨n :: ns, ?_⟩
      rw [List.mapM_cons, hn, hns]
      rfl
  · intro p
    rfl

/-- Closed instance of the amended C6 theorem: a one-span list with an empty
annotations object renders successfully, and the all-absent span "ok"
renders as a bare unstyled span. -/
theorem renderRichText_total_witness :
    (∃ ns : List MarkupNode,
      ([⟨"text", "hi", some ⟨none, none, none, none, none, none⟩, none⟩] :
        List RichTextItem).mapM renderSpan = .ok ns) ∧
    renderSpan ⟨"text", "ok", some ⟨none, none, none, none, none, none⟩, none⟩ =
      .ok (.span none (.text "ok")) :=
  ⟨renderRichText_total_of_annotations_present.1 _ (by decide),
    renderRichText_total_of_annotations_present.2 "ok"⟩

/-- One response of `notion.blocks.children.list`: the page of results, the
`has_more` flag, and the `next_cursor` (possibly null). -/
structure BlockListResponse where
  results : List NotionBlockWithChildren
  has_more : Bool
  next_cursor : Option String
deriving Repr, DecidableEq

/-- One request the pagination loop issues: the `start_cursor` it passes
(absent on the first call) and the requested `page_size`. -/
structure BlockListRequest where
  start_cursor : Option String
  page_size : Nat
deriving Repr, DecidableEq

/-- The `while (hasMore)` pagination loop of `getBlocks`
(src/lib/notion.ts lines 352-368).  The remote collaborator is modelled by
the sequence of responses it yields to successive calls.  Each iteration
issues one request carrying the current cursor and `page_size: 100`,
concatenates the response's results onto the accumulated list, and
continues exactly when `has_more`, threading `next_cursor || undefined` as
the next cursor.  The pair returned is the flat block list before child
resolution together with the requests issued, in order. -/
def fetchAllBlocks : Option String → List BlockListResponse →
    List NotionBlockWithChildren × List BlockListRequest
  | _, [] => ([], [])
  | cursor, r :: rest =>
    if r.has_more then
      (r.results ++
        (fetchAllBlocks (if jsTruthyS r.next_cursor then r.next_cursor else none) rest).1,
        ⟨cursor, 100⟩ ::
          (fetchAllBlocks (if jsTruthyS r.next_cursor then r.next_cursor else none) rest).2)
    else
      (r.results, [⟨cursor, 100⟩])

/-- The pagination phase of `getBlocks` starts with no cursor. -/
def getBlocksPaginate (responses : List BlockListResponse) :
    List NotionBlockWithChildren × List BlockListRequest :=
  fetchAllBlocks none responses

theorem fetchAllBlocks_pages (responses : List BlockListResponse) :
    ∀ cursor : Option String, responses ≠ [] →
    (∀ r ∈ responses.dropLast, r.has_more = true) →
    (∀ x ∈ responses.getLast?, x.has_more = false) →
    fetchAllBlocks cursor responses =
      ((responses.map (fun r => r.results)).flatten,
        (cursor :: responses.dropLast.map
          (fun r => if jsTruthyS r.next_cursor then r.next_cursor else none)).map
          (fun c => (⟨c, 100⟩ : BlockListRequest))) := by
  induction responses with
  | nil =>
    intro cursor hne _ _
    exact absurd rfl hne
  | cons r rest ih =>
    intro cursor hne hmid hlast
    cases rest with
    | nil =>
      have hlm : r.has_more = false := hlast r (by simp)
      simp [fetchAllBlocks, hlm]
    | cons r2 rest2 =>
      have hr : r.has_more = true := by
        refine hmid r ?_
        rw [List.dropLast_cons₂]
        exact List.mem_cons_self r _
      have hrec := ih (if jsTruthyS r.next_cursor then r.next_cursor else none)
        (by simp)
        (fun x hx => hmid x (by rw [List.dropLast_cons₂]; exact List.mem_cons_of_mem r hx))
        (fun x hx => hlast x (by rwa [List.getLast?_cons_cons]))
      rw [fetchAllBlocks, if_pos hr, hrec]
      simp [List.dropLast_cons₂]

/-- C7: when the source yields finitely many pages, all but the last
reporting `has_more` and the last reporting no further pages, the pagination
loop of `getBlocks` issues exactly one request per page — each with
`page_size` 100, the first with no cursor, and each later one carrying the
previous response's `next_cursor` — and returns the concatenation of the
per-page results in page order. -/
theorem getBlocks_pagination (responses : List BlockListResponse) (hne : responses ≠ [])
    (hmid : ∀ r ∈ responses.dropLast, r.has_more = true)
    (hlast : ∀ x ∈ responses.getLast?, x.has_more = false) :
    getBlocksPaginate responses =
      ((responses.map (fun r => r.results)).flatten,
        (none :: responses.dropLast.map
          (fun r => if jsTruthyS r.next_cursor then r.next_cursor else none)).map
          (fun c => (⟨c, 100⟩ : BlockListRequest))) :=
  fetchAllBlocks_pages responses none hne hmid hlast

/-- Closed instance of the C7 theorem: a source with 2 pages of 2 items each
(`has_more` true then false) produces exactly 2 requests — cursors `none`
then `"next-page"`, both of size 100 — and a flat 4-element list in page
order, before child resolution. -/
theorem getBlocks_pagination_witness :
    getBlocksPaginate
      [⟨[⟨"b1", "paragraph", false⟩, ⟨"b2", "paragraph", false⟩], true, some "next-page"⟩,
        ⟨[⟨"b3", "paragraph", false⟩, ⟨"b4", "paragraph", false⟩], false, none⟩] =
      ([⟨"b1", "paragraph", false⟩, ⟨"b2", "paragraph", false⟩, ⟨"b3", "paragraph", false⟩,
        ⟨"b4", "paragraph", false⟩],
        [⟨none, 100⟩, ⟨some "next-page", 100⟩]) := by
  rw [getBlocks_pagination _ (by decide) (by decide) (by decide)]
  decide

/-- JS `a || b` on a possibly-absent string: the fallback is used when the
left side is absent or empty (falsy). -/
def jsOr (a : Option String) (b : String) : String :=
  match a with
  | some s => if s = "" then b else s
  | none => b

/-- JS `String.prototype.toLowerCase`, applied per character. -/
def jsToLower (s : String) : String :=
  String.mk (s.toList.map Char.toLower)

/-- JS `String.prototype.trim`: strip whitespace from both ends. -/
def jsTrim (s : String) : String :=
  String.mk (((s.toList.dropWhile Char.isWhitespace).reverse.dropWhile
    Char.isWhitespace).reverse)

/-- JS `s.split(',')`, keeping empty pieces. -/
def splitCommaAux : List Char → List Char → List String
  | [], acc => [String.mk acc.reverse]
  | c :: rest, acc =>
    if c = ',' then String.mk acc.reverse :: splitCommaAux rest []
    else splitCommaAux rest (c :: acc)

/-- JS `s.split(',')` on a string. -/
def jsSplitComma (s : String) : List String :=
  splitCommaAux s.toList []

/-- One rich-text piece of a page property; only `plain_text` is read. -/
structure TextSpanLite where
  plain_text : String
deriving Repr, DecidableEq

/-- One `multi_select` tag option: `name` and `color`. -/
structure TagOption where
  name : String
  color : String
deriving Repr, DecidableEq

/-- One entry of the `author` people property. -/
structure PersonLite where
  name : Option String
  avatar_url : Option String
deriving Repr, DecidableEq

/-- One entry of the thumbnail files property: its `type` and the two
possible url holders `file?.url` and `external?.url`. -/
structure FileRefLite where
  type : Option String
  fileUrl : Option String
  externalUrl : Option String
deriving Repr, DecidableEq

/-- The page-level cover image: its `type` and the url holders. -/
structure CoverLite where
  type : String
  externalUrl : Option String
  fileUrl : Option String
deriving Repr, DecidableEq

/-- The typed properties `formatPage` reads (`PageData`).  Optional chains
through fixed intermediate objects are flattened to their net result: e.g.
`dateStart` models `properties.date?.date?.start` and `category` models
`properties.category?.select?.name`. -/
structure PageProperties where
  title : Option (List TextSpanLite)
  slug : Option (List TextSpanLite)
  thumbnailFiles : Option (List FileRefLite)
  dateStart : Option String
  updatedAtLastEdited : Option String
  tags : Option (List TagOption)
  authorPeople : Option (List PersonLite)
  category : Option String
  status : Option String
  summary : Option (List TextSpanLite)
  keywords : Option (List TextSpanLite)
deriving Repr, DecidableEq

/-- A raw page object (`PageResponse`) as `formatPage` reads it. -/
structure PageResponse where
  id : String
  cover : Option CoverLite
  created_time : Option String
  last_edited_time : Option String
  properties : PageProperties
deriving Repr, DecidableEq

/-- The thumbnail of a formatted page. -/
structure ThumbnailLite where
  type : String
  url : String
deriving Repr, DecidableEq

/-- The author of a formatted page. -/
structure AuthorLite where
  name : Option String
  avatar_url : Option String
deriving Repr, DecidableEq

/-- A formatted page (`FormattedPage`).  The `date` and `updatedAt` fields
hold the resolved date strings before the `new Date(...).toISOString()`
re-normalisation, which is not modelled (no verified property reads the
date values). -/
structure FormattedPage where
  id : String
  title : String
  summary : String
  slug : String
  author : Option AuthorLite
  keywords : List String
  category : Option String
  tags : List TagOption
  blocks : List NotionBlockWithChildren
  thumbnail : Option ThumbnailLite
  date : String
  updatedAt : String
  status : Option String
deriving Repr, DecidableEq

/-- The first `plain_text` of a rich-text property, when any. -/
def firstPlainText (spans : Option (List TextSpanLite)) : Option String :=
  match spans with
  | some l => l.head?.map (fun s => s.plain_text)
  | none => none

/-- The `else if (page.cover)` thumbnail branch of `formatPage`
(lines 227-235). -/
def coverThumbnail (cover : Option CoverLite) : Option ThumbnailLite :=
  match cover with
  | some c =>
    some ⟨c.type, if c.type = "external" then jsOr c.externalUrl "" else jsOr c.fileUrl ""⟩
  | none => none

/-- Mirror of `formatPage` (src/lib/notion.ts lines 200-289).  `nowIso`
stands for the `new Date().toISOString()` fallback instant.  Every fallback
uses JS truthiness: an empty first title span still yields the "無題"
placeholder, an empty slug span falls back to the page id, and so on. -/
def formatPage (page : PageResponse) (blocks : Option (List NotionBlockWithChildren))
    (nowIso : String) : FormattedPage :=
  let props := page.properties
  let title := jsOr (firstPlainText props.title) "無題"
  let slug := jsOr (firstPlainText props.slug) page.id
  let thumbnail : Option ThumbnailLite :=
    match props.thumbnailFiles with
    | some files =>
      match files.head? with
      | some thumb =>
        some ⟨jsOr thumb.type "external", jsOr thumb.fileUrl (jsOr thumb.externalUrl "")⟩
      | none => coverThumbnail page.cover
    | none => coverThumbnail page.cover
  let dateStr := jsOr props.dateStart (jsOr page.created_time nowIso)
  let updatedAtStr := jsOr props.updatedAtLastEdited (jsOr page.last_edited_time dateStr)
  let tags : List TagOption :=
    match props.tags with
    | some l => l.map (fun t => ⟨t.name, t.color⟩)
    | none => []
  let author : Option AuthorLite :=
    match props.authorPeople with
    | some people => people.head?.map (fun person => ⟨person.name, person.avatar_url⟩)
    | none => none
  let summary := jsOr (firstPlainText props.summary) ""
  let keywords : List String :=
    match firstPlainText props.keywords with
    | some k => if k = "" then [] else (jsSplitComma k).map jsTrim
    | none => []
  { id := page.id
    title := title
    summary := summary
    slug := slug
    author := author
    keywords := keywords
    category := props.category
    tags := tags
    blocks := blocks.getD []
    thumbnail := thumbnail
    date := dateStr
    updatedAt := updatedAtStr
    status := props.status }

/-- Mirror of `formatPages` (lines 296-299): each page is shaped without a
blocks argument. -/
def formatPages (pages : List PageResponse) (nowIso : String) : List FormattedPage :=
  pages.map (fun page => formatPage page none nowIso)

/-- A thrown JS `Error`, identified by its message. -/
structure JsError where
  message : String
deriving Repr, DecidableEq

/-- The configuration error message thrown when `NOTION_DATABASE_ID` is
unset. -/
def configErrorMessage : String :=
  "NOTION_DATABASE_IDが設定されていません"

/-- JS template interpolation of a possibly-undefined value. -/
def optIdText (v : Option String) : String :=
  match v with
  | some s => s
  | none => "undefined"

/-- The catch-block classification of `getFormattedDatabase`
(lines 510-523): 404 and 401/403 markers yield specific messages (no 429
branch there), anything else the generic wrapped message. -/
def classifyDatabaseError (errorMsg : String) (dbId : Option String) : String :=
  if strIncludes errorMsg "404" then
    "データベースが見つかりません (ID: " ++ optIdText dbId ++ ")"
  else if strIncludes errorMsg "401" || strIncludes errorMsg "403" then
    "データベースへのアクセス権限がありません (ID: " ++ optIdText dbId ++ ")"
  else
    "データベースの取得・整形に失敗しました: " ++ errorMsg

/-- The body shared by the try blocks of the three listing fetch functions
(`getFormattedDatabase` lines 464-509, `getPagesByTag` lines 601-623,
`getPagesByCategory` lines 681-703): re-check the collection id — the inner
configuration error is thrown inside the try — then query the collection
(`queryResult` is the remote outcome) and shape the results with
`formatPages`. -/
def shapeListing (databaseId : Option String)
    (queryResult : Except JsError (List PageResponse)) (nowIso : String) :
    Except JsError (List FormattedPage) :=
  if jsTruthyS databaseId then
    match queryResult with
    | .ok results => .ok (formatPages results nowIso)
    | .error e => .error e
  else
    .error ⟨configErrorMessage⟩

/-- The fetch function `getFormattedDatabase` hands to the cache
(lines 462-525): any error thrown inside the try — including the inner
configuration error — is caught and classified. -/
def getFormattedDatabaseFetch (databaseId : Option String)
    (queryResult : Except JsError (List PageResponse)) (nowIso : String) :
    Except JsError (List FormattedPage) :=
  match shapeListing databaseId queryResult nowIso with
  | .ok v => .ok v
  | .error e => .error ⟨classifyDatabaseError e.message databaseId⟩

/-- Mirror of `getFormattedDatabase` (lines 445-526): the collection id is
checked first — an unset (falsy) id throws the configuration error before
the cache is consulted or any remote call happens — and otherwise the
operation runs through the cache under
`formatted-database:<filterByStatus>:<status>`. -/
def getFormattedDatabase (databaseId : Option String) (filterByStatus : Bool)
    (status : String) (now : ℚ) (nowIso : String)
    (cache : CacheState (List FormattedPage))
    (queryResult : Except JsError (List PageResponse)) :
    LookupOutcome JsError (List FormattedPage) :=
  if jsTruthyS databaseId then
    getFromCacheOrFetch now
      ("formatted-database:" ++ (if filterByStatus then "true" else "false") ++ ":" ++ status)
      cache (getFormattedDatabaseFetch databaseId queryResult nowIso) DEFAULT_CACHE_CONFIG
  else
    ⟨.error ⟨configErrorMessage⟩, cache, false, false⟩

/-- The fetch function of `getPagesByTag` (lines 599-629): every caught
error is wrapped with the tag-filter message. -/
def getPagesByTagFetch (databaseId : Option String)
    (queryResult : Except JsError (List PageResponse)) (nowIso : String) :
    Except JsError (List FormattedPage) :=
  match shapeListing databaseId queryResult nowIso with
  | .ok v => .ok v
  | .error e => .error ⟨"タグでのフィルタリングに失敗しました: " ++ e.message⟩

/-- Mirror of `getPagesByTag` (lines 588-630), cached under
`pages-by-tag:<tag>`. -/
def getPagesByTag (databaseId : Option String) (tag : String) (now : ℚ) (nowIso : String)
    (cache : CacheState (List FormattedPage))
    (queryResult : Except JsError (List PageResponse)) :
    LookupOutcome JsError (List FormattedPage) :=
  if jsTruthyS databaseId then
    getFromCacheOrFetch now ("pages-by-tag:" ++ tag) cache
      (getPagesByTagFetch databaseId queryResult nowIso) DEFAULT_CACHE_CONFIG
  else
    ⟨.error ⟨configErrorMessage⟩, cache, false, false⟩

/-- The fetch function of `getPagesByCategory` (lines 679-709). -/
def getPagesByCategoryFetch (databaseId : Option String)
    (queryResult : Except JsError (List PageResponse)) (nowIso : String) :
    Except JsError (List FormattedPage) :=
  match shapeListing databaseId queryResult nowIso with
  | .ok v => .ok v
  | .error e => .error ⟨"カテゴリでのフィルタリングに失敗しました: " ++ e.message⟩

/-- Mirror of `getPagesByCategory` (lines 668-710), cached under
`pages-by-category:<category>`. -/
def getPagesByCategory (databaseId : Option String) (category : String) (now : ℚ)
    (nowIso : String) (cache : CacheState (List FormattedPage))
    (queryResult : Except JsError (List PageResponse)) :
    LookupOutcome JsError (List FormattedPage) :=
  if jsTruthyS databaseId then
    getFromCacheOrFetch now ("pages-by-category:" ++ category) cache
      (getPagesByCategoryFetch databaseId queryResult nowIso) DEFAULT_CACHE_CONFIG
  else
    ⟨.error ⟨configErrorMessage⟩, cache, false, false⟩

/-- The per-page filter of `searchPages` (lines 763-786): early-return
chain over lowercased title, summary, tag names, and the truthiness-guarded
category. -/
def pageMatchesQuery (lowerQuery : String) (page : FormattedPage) : Bool :=
  if strIncludes (jsToLower page.title) lowerQuery then true
  else if strIncludes (jsToLower page.summary) lowerQuery then true
  else if page.tags.any (fun tag => strIncludes (jsToLower tag.name) lowerQuery) then true
  else if (match page.category with
           | some c => (c != "") && strIncludes (jsToLower c) lowerQuery
           | none => false) then true
  else false

/-- Everything one `searchPages` call produces: the result, the cache at
return, whether the database listing was consulted at all, and the flags of
the underlying cache lookup. -/
structure SearchOutcome where
  result : Except JsError (List FormattedPage)
  cache : CacheState (List FormattedPage)
  dbConsulted : Bool
  syncFetchInvoked : Bool
  bgRefreshTriggered : Bool
deriving Repr

/-- Mirror of `searchPages` (lines 750-795): a blank (whitespace-only)
query short-circuits to an empty list with no remote interaction at all;
otherwise the full unfiltered listing is obtained through
`getFormattedDatabase(false)` — and hence through its cache entry — and
filtered by `pageMatchesQuery`; an error is re-wrapped with the search
message.  No search-specific cache key exists. -/
def searchPages (databaseId : Option String) (query : String) (now : ℚ) (nowIso : String)
    (cache : CacheState (List FormattedPage))
    (queryResult : Except JsError (List PageResponse)) : SearchOutcome :=
  if jsTrim query = "" then
    ⟨.ok [], cache, false, false, false⟩
  else
    let o := getFormattedDatabase databaseId false "Public" now nowIso cache queryResult
    match o.result with
    | .ok allPages =>
      ⟨.ok (allPages.filter (pageMatchesQuery (jsToLower query))), o.cache, true,
        o.syncFetchInvoked, o.bgRefreshTriggered⟩
    | .error e =>
      ⟨.error ⟨"ページの検索に失敗しました: " ++ e.message⟩, o.cache, true,
        o.syncFetchInvoked, o.bgRefreshTriggered⟩

/-- C8: with the collection identifier unset, `getFormattedDatabase` throws
the configuration error immediately: the outcome is the same for every
cache state and every remote outcome (so neither is consulted), the cache
is returned untouched, no fetch is awaited and no background refresh is
started — the remote collaborator is never invoked. -/
theorem getFormattedDatabase_config_error (filterByStatus : Bool) (status : String)
    (now : ℚ) (nowIso : String) (cache : CacheState (List FormattedPage))
    (queryResult : Except JsError (List PageResponse)) :
    getFormattedDatabase none filterByStatus status now nowIso cache queryResult =
      ⟨.error ⟨configErrorMessage⟩, cache, false, false⟩ :=
  rfl

theorem toList_eq_nil_iff (s : String) : s.toList = [] ↔ s = "" := by
  cases s with
  | mk data =>
    constructor
    · intro h
      have hd : data = [] := h
      rw [hd]
    · intro h
      rw [h]
      rfl

theorem includesAux_nil_cons (c : Char) (cs : List Char) :
    includesAux (c :: cs) [] = false :=
  rfl

theorem jsToLower_ne_empty {q : String} (hq : q ≠ "") : jsToLower q ≠ "" := by
  intro habs
  apply hq
  have hmap : q.toList.map Char.toLower = [] := congrArg String.data habs
  have hnil : q.toList = [] := List.map_eq_nil_iff.mp hmap
  exact (toList_eq_nil_iff q).mp hnil

theorem strIncludes_empty_left {lq : String} (h : lq ≠ "") :
    strIncludes "" lq = false := by
  cases hl : lq.toList with
  | nil => exact absurd ((toList_eq_nil_iff lq).mp hl) h
  | cons c cs =>
    show includesAux lq.toList [] = false
    rw [hl]
    exact includesAux_nil_cons c cs

theorem lookupKey_mem {T : Type} (cache : CacheState T) (key : String) (item : CacheItem T)
    (h : lookupKey cache key = some item) : ∃ kv ∈ cache, kv.2 = item := by
  unfold lookupKey at h
  cases hf : cache.find? (fun kv => kv.1 == key) with
  | none =>
    rw [hf] at h
    exact Option.noConfusion h
  | some kv =>
    rw [hf] at h
    exact ⟨kv, List.mem_of_find?_eq_some hf, by simpa using h⟩

theorem getFromCacheOrFetch_other_keys {ε T : Type} (now : ℚ) (key : String)
    (cache : CacheState T) (fetchResult : Except ε T) (config : CacheConfig)
    (k : String) (hk : k ≠ key) :
    lookupKey (getFromCacheOrFetch now key cache fetchResult config).cache k =
      lookupKey cache k := by
  unfold getFromCacheOrFetch
  cases hl : lookupKey cache key with
  | some item =>
    dsimp only
    by_cases hf : now < item.expiresAt
    · rw [if_pos hf]
    · rw [if_neg hf]
      cases fetchResult with
      | ok d =>
        dsimp only
        exact lookupKey_setKey_other cache key k ⟨d, now, now + config.ttl⟩ hk
      | error e => rfl
  | none =>
    dsimp only
    cases fetchResult with
    | ok d =>
      dsimp only
      exact lookupKey_setKey_other cache key k ⟨d, now, now + config.ttl⟩ hk
    | error e => rfl

theorem getFromCacheOrFetch_result_invariant {ε T : Type} (P : T → Prop) (now : ℚ)
    (key : String) (cache : CacheState T) (fetchResult : Except ε T) (config : CacheConfig)
    (hcache : ∀ kv ∈ cache, P kv.2.data)
    (hfetch : ∀ d, fetchResult = .ok d → P d) :
    ∀ v, (getFromCacheOrFetch now key cache fetchResult config).result = .ok v → P v := by
  intro v hv
  unfold getFromCacheOrFetch at hv
  cases hl : lookupKey cache key with
  | some item =>
    simp only [hl] at hv
    obtain ⟨kv, hkv, hkvi⟩ := lookupKey_mem cache key item hl
    by_cases hf : now < item.expiresAt
    · rw [if_pos hf] at hv
      simp only [Except.ok.injEq] at hv
      rw [← hv, ← hkvi]
      exact hcache kv hkv
    · rw [if_neg hf] at hv
      cases hq : fetchResult with
      | ok d =>
        simp only [hq] at hv
        simp only [Except.ok.injEq] at hv
        rw [← hv]
        exact hfetch d hq
      | error e =>
        simp only [hq] at hv
        simp only [Except.ok.injEq] at hv
        rw [← hv, ← hkvi]
        exact hcache kv hkv
  | none =>
    simp only [hl] at hv
    cases hq : fetchResult with
    | ok d =>
      simp only [hq] at hv
      simp only [Except.ok.injEq] at hv
      rw [← hv]
      exact hfetch d hq
    | error e =>
      simp only [hq] at hv
      exact Except.noConfusion hv

theorem shapeListing_ok (databaseId : Option String)
    (queryResult : Except JsError (List PageResponse)) (nowIso : String)
    (v : List FormattedPage) (h : shapeListing databaseId queryResult nowIso = .ok v) :
    ∃ results, queryResult = .ok results ∧ v = formatPages results nowIso := by
  unfold shapeListing at h
  by_cases hdb : jsTruthyS databaseId = true
  · rw [if_pos hdb] at h
    cases hq : queryResult with
    | ok results =>
      rw [hq] at h
      simp only [Except.ok.injEq] at h
      exact ⟨results, rfl, h.symm⟩
    | error e =>
      rw [hq] at h
      exact Except.noConfusion h
  · rw [if_neg hdb] at h
    exact Except.noConfusion h

theorem formatPages_blocks (pages : List PageResponse) (nowIso : String) :
    ∀ page ∈ formatPages pages nowIso, page.blocks = ([] : List NotionBlockWithChildren) := by
  intro page hp
  simp only [formatPages, List.mem_map] at hp
  obtain ⟨raw, _, heq⟩ := hp
  rw [← heq]
  rfl

/-- Modelled from the spec's sentence for the search filter: a page is
retained when its title, summary, some tag name, or its category contains
the case-insensitive query substring.  Stated as one plain disjunction with
no truthiness guard on the category, to be compared with the source's
`pageMatchesQuery`. -/
def specSearchMatch (query : String) (page : FormattedPage) : Bool :=
  strIncludes (jsToLower page.title) (jsToLower query) ||
  strIncludes (jsToLower page.summary) (jsToLower query) ||
  page.tags.any (fun t => strIncludes (jsToLower t.name) (jsToLower query)) ||
  (match page.category with
   | some c => strIncludes (jsToLower c) (jsToLower query)
   | none => false)

theorem pageMatchesQuery_eq_spec (query : String) (page : FormattedPage)
    (hq : query ≠ "") :
    pageMatchesQuery (jsToLower query) page = specSearchMatch query page := by
  have hlq : jsToLower query ≠ "" := jsToLower_ne_empty hq
  unfold pageMatchesQuery specSearchMatch
  cases h1 : strIncludes (jsToLower page.title) (jsToLower query) <;>
    cases h2 : strIncludes (jsToLower page.summary) (jsToLower query) <;>
    cases h3 : page.tags.any (fun t => strIncludes (jsToLower t.name) (jsToLower query)) <;>
    simp only [h1, h2, h3, if_true, if_false, Bool.false_or, Bool.true_or, Bool.or_false,
      Bool.or_true] <;> try decide
  cases hc : page.category with
  | none => simp
  | some c =>
    by_cases hce : c = ""
    · subst hce
      have h0 : jsToLower "" = "" := rfl
      simp [h0, strIncludes_empty_left hlq]
    · simp [hce]

/-- C9 counterexample: with a fresh listing cached under the
formatted-database key, a search for "alpha" is answered entirely from that
cache entry — the injected fetch is not awaited even though the remote's
current listing is empty — so search results ARE served from a cache entry
and need not reflect current data, falsifying the claim as stated. -/
theorem searchPages_served_from_cache :
    (searchPages (some "db") "alpha" 0 "2024-01-01"
        [("formatted-database:false:Public",
          ⟨[⟨"p1", "alpha", "", "p1", none, [], none, [], [], none, "2024-01-01",
            "2024-01-01", none⟩], 0, 300000⟩)] (.ok [])).result =
      .ok [⟨"p1", "alpha", "", "p1", none, [], none, [], [], none, "2024-01-01",
        "2024-01-01", none⟩] ∧
    (searchPages (some "db") "alpha" 0 "2024-01-01"
        [("formatted-database:false:Public",
          ⟨[⟨"p1", "alpha", "", "p1", none, [], none, [], [], none, "2024-01-01",
            "2024-01-01", none⟩], 0, 300000⟩)] (.ok [])).syncFetchInvoked = false := by
  exact ⟨rfl, rfl⟩

/-- C9 (amended): `searchPages` maintains no search-specific cache state —
every key other than the formatted-database listing key reads the same
before and after — and a blank (empty or whitespace-only) query
short-circuits to an empty result with no remote interaction; a non-blank
query obtains the full unfiltered listing via `getFormattedDatabase(false)`
— which is itself served through the cache under
`formatted-database:false:Public`, so searches are not uncached end to end —
and retains exactly the pages whose title, summary, some tag name, or
category contains the case-insensitive query substring. -/
theorem searchPages_behaviour (databaseId : Option String) (query : String) (now : ℚ)
    (nowIso : String) (cache : CacheState (List FormattedPage))
    (queryResult : Except JsError (List PageResponse)) :
    (jsTrim query = "" →
      searchPages databaseId query now nowIso cache queryResult =
        ⟨.ok [], cache, false, false, false⟩) ∧
    (jsTrim query ≠ "" →
      ∀ pages : List FormattedPage,
        (getFormattedDatabase databaseId false "Public" now nowIso cache
          queryResult).result = .ok pages →
        (searchPages databaseId query now nowIso cache queryResult).result =
          .ok (pages.filter (specSearchMatch query))) ∧
    (∀ k : String, k ≠ "formatted-database:false:Public" →
      lookupKey (searchPages databaseId query now nowIso cache queryResult).cache k =
        lookupKey cache k) := by
  refine ⟨fun hblank => ?_, fun hnb pages hpages => ?_, fun k hk => ?_⟩
  · rw [searchPages, if_pos hblank]
  · have hqne : query ≠ "" := by
      intro habs
      rw [habs] at hnb
      exact hnb rfl
    rw [searchPages, if_neg hnb]
    dsimp only
    rw [hpages]
    dsimp only
    congr 1
    rw [List.filter_congr]
    intro page _
    exact pageMatchesQuery_eq_spec query page hqne
  · by_cases hblank : jsTrim query = ""
    · rw [searchPages, if_pos hblank]
    · rw [searchPages, if_neg hblank]
      dsimp only
      have hdbkey : ("formatted-database:" ++ (if (false : Bool) then "true" else "false")
          ++ ":" ++ "Public" : String) = "formatted-database:false:Public" := by decide
      have hcache : (getFormattedDatabase databaseId false "Public" now nowIso cache
          queryResult).cache = cache ∨
          ∀ k2, k2 ≠ "formatted-database:false:Public" →
            lookupKey (getFormattedDatabase databaseId false "Public" now nowIso cache
              queryResult).cache k2 = lookupKey cache k2 := by
        right
        intro k2 hk2
        rw [getFormattedDatabase]
        by_cases hdb : jsTruthyS databaseId = true
        · rw [if_pos hdb]
          refine getFromCacheOrFetch_other_keys now _ cache _ DEFAULT_CACHE_CONFIG k2 ?_
          rw [hdbkey]
          exact hk2
        · rw [if_neg hdb]
      rcases hcache with hsame | hother
      · cases hres : (getFormattedDatabase databaseId false "Public" now nowIso cache
            queryResult).result with
        | ok allPages => simp only [hres, hsame]
        | error e => simp only [hres, hsame]
      · cases hres : (getFormattedDatabase databaseId false "Public" now nowIso cache
            queryResult).result with
        | ok allPages =>
          simp only [hres]
          exact hother k hk
        | error e =>
          simp only [hres]
          exact hother k hk

/-- Closed instance of the amended C9 theorem: a whitespace-only query
short-circuits to the empty result with the cache untouched and nothing
fetched, and a non-blank query over a successful listing returns exactly the
spec-filtered pages. -/
theorem searchPages_behaviour_witness :
    searchPages (some "db") " " 0 "t" [] (.ok []) = ⟨.ok [], [], false, false, false⟩ ∧
    (searchPages (some "db") "alpha" 0 "t" [] (.ok [])).result =
      .ok (([] : List FormattedPage).filter (specSearchMatch "alpha")) := by
  constructor
  · exact (searchPages_behaviour (some "db") " " 0 "t" [] (.ok [])).1 (by decide)
  · exact (searchPages_behaviour (some "db") "alpha" 0 "t" [] (.ok [])).2.1 (by decide)
      [] rfl

/-- The invariant the system maintains on the shared listing cache: every
entry's stored pages carry no blocks. -/
def listingCacheOk (cache : CacheState (List FormattedPage)) : Prop :=
  ∀ kv ∈ cache, ∀ page ∈ kv.2.data, page.blocks = ([] : List NotionBlockWithChildren)

theorem getFormattedDatabaseFetch_ok (databaseId : Option String)
    (queryResult : Except JsError (List PageResponse)) (nowIso : String) :
    ∀ v, getFormattedDatabaseFetch databaseId queryResult nowIso = .ok v →
      shapeListing databaseId queryResult nowIso = .ok v := by
  intro v hv
  unfold getFormattedDatabaseFetch at hv
  cases hs : shapeListing databaseId queryResult nowIso with
  | ok w =>
    simp only [hs, Except.ok.injEq] at hv
    rw [hv]
  | error e =>
    simp only [hs] at hv
    exact Except.noConfusion hv

theorem getPagesByTagFetch_ok (databaseId : Option String)
    (queryResult : Except JsError (List PageResponse)) (nowIso : String) :
    ∀ v, getPagesByTagFetch databaseId queryResult nowIso = .ok v →
      shapeListing databaseId queryResult nowIso = .ok v := by
  intro v hv
  unfold getPagesByTagFetch at hv
  cases hs : shapeListing databaseId queryResult nowIso with
  | ok w =>
    simp only [hs, Except.ok.injEq] at hv
    rw [hv]
  | error e =>
    simp only [hs] at hv
    exact Except.noConfusion hv

theorem getPagesByCategoryFetch_ok (databaseId : Option String)
    (queryResult : Except JsError (List PageResponse)) (nowIso : String) :
    ∀ v, getPagesByCategoryFetch databaseId queryResult nowIso = .ok v →
      shapeListing databaseId queryResult nowIso = .ok v := by
  intro v hv
  unfold getPagesByCategoryFetch at hv
  cases hs : shapeListing databaseId queryResult nowIso with
  | ok w =>
    simp only [hs, Except.ok.injEq] at hv
    rw [hv]
  | error e =>
    simp only [hs] at hv
    exact Except.noConfusion hv

theorem cachedListing_blocks_empty (databaseId : Option String) (key : String) (now : ℚ)
    (nowIso : String) (cache : CacheState (List FormattedPage))
    (queryResult : Except JsError (List PageResponse))
    (wrapped : Except JsError (List FormattedPage))
    (hwrap : ∀ v, wrapped = .ok v → shapeListing databaseId queryResult nowIso = .ok v)
    (hcache : listingCacheOk cache) :
    ∀ v, (getFromCacheOrFetch now key cache wrapped DEFAULT_CACHE_CONFIG).result = .ok v →
      ∀ page ∈ v, page.blocks = ([] : List NotionBlockWithChildren) := by
  intro v hv
  refine getFromCacheOrFetch_result_invariant
    (fun pages => ∀ page ∈ pages, page.blocks = ([] : List NotionBlockWithChildren))
    now key cache wrapped DEFAULT_CACHE_CONFIG (fun kv hkv => hcache kv hkv) ?_ v hv
  intro d hd
  obtain ⟨results, _, hfmt⟩ := shapeListing_ok databaseId queryResult nowIso d (hwrap d hd)
  rw [hfmt]
  exact formatPages_blocks results nowIso

theorem getFormattedDatabase_blocks_empty (databaseId : Option String)
    (filterByStatus : Bool) (status : String) (now : ℚ) (nowIso : String)
    (cache : CacheState (List FormattedPage))
    (queryResult : Except JsError (List PageResponse)) (hcache : listingCacheOk cache) :
    ∀ v, (getFormattedDatabase databaseId filterByStatus status now nowIso cache
      queryResult).result = .ok v →
      ∀ page ∈ v, page.blocks = ([] : List NotionBlockWithChildren) := by
  intro v hv
  unfold getFormattedDatabase at hv
  by_cases hdb : jsTruthyS databaseId = true
  · rw [if_pos hdb] at hv
    exact cachedListing_blocks_empty databaseId _ now nowIso cache queryResult _
      (getFormattedDatabaseFetch_ok databaseId queryResult nowIso) hcache v hv
  · rw [if_neg hdb] at hv
    exact Except.noConfusion hv

/-- C10: every page the listing operations return carries an empty blocks
sequence.  `formatPages` shapes pages without ever attaching blocks, and —
given the invariant that every cached listing entry likewise holds
block-less pages, which holds along every run since listing entries are only
written from `formatPages` results — `getFormattedDatabase`,
`getPagesByTag`, `getPagesByCategory` and `searchPages` return only
block-less pages; blocks are populated solely by the page-level operations. -/
theorem listing_pages_have_no_blocks :
    (∀ (pages : List PageResponse) (nowIso : String),
      ∀ page ∈ formatPages pages nowIso,
        page.blocks = ([] : List NotionBlockWithChildren)) ∧
    (∀ (databaseId : Option String) (filterByStatus : Bool) (status : String) (now : ℚ)
      (nowIso : String) (cache : CacheState (List FormattedPage))
      (queryResult : Except JsError (List PageResponse)),
      listingCacheOk cache →
      ∀ v, (getFormattedDatabase databaseId filterByStatus status now nowIso cache
        queryResult).result = .ok v →
        ∀ page ∈ v, page.blocks = ([] : List NotionBlockWithChildren)) ∧
    (∀ (databaseId : Option String) (tag : String) (now : ℚ) (nowIso : String)
      (cache : CacheState (List FormattedPage))
      (queryResult : Except JsError (List PageResponse)),
      listingCacheOk cache →
      ∀ v, (getPagesByTag databaseId tag now nowIso cache queryResult).result = .ok v →
        ∀ page ∈ v, page.blocks = ([] : List NotionBlockWithChildren)) ∧
    (∀ (databaseId : Option String) (category : String) (now : ℚ) (nowIso : String)
      (cache : CacheState (List FormattedPage))
      (queryResult : Except JsError (List PageResponse)),
      listingCacheOk cache →
      ∀ v, (getPagesByCategory databaseId category now nowIso cache queryResult).result
          = .ok v →
        ∀ page ∈ v, page.blocks = ([] : List NotionBlockWithChildren)) ∧
    (∀ (databaseId : Option String) (query : String) (now : ℚ) (nowIso : String)
      (cache : CacheState (List FormattedPage))
      (queryResult : Except JsError (List PageResponse)),
      listingCacheOk cache →
      ∀ v, (searchPages databaseId query now nowIso cache queryResult).result = .ok v →
        ∀ page ∈ v, page.blocks = ([] : List NotionBlockWithChildren)) := by
  refine ⟨fun pages nowIso => formatPages_blocks pages nowIso,
    fun databaseId fb st now nowIso cache qr hcache =>
      getFormattedDatabase_blocks_empty databaseId fb st now nowIso cache qr hcache,
    fun databaseId tag now nowIso cache qr hcache v hv => ?_,
    fun databaseId category now nowIso cache qr hcache v hv => ?_,
    fun databaseId query now nowIso cache qr hcache v hv => ?_⟩
  · unfold getPagesByTag at hv
    by_cases hdb : jsTruthyS databaseId = true
    · rw [if_pos hdb] at hv
      exact cachedListing_blocks_empty databaseId _ now nowIso cache qr _
        (getPagesByTagFetch_ok databaseId qr nowIso) hcache v hv
    · rw [if_neg hdb] at hv
      exact Except.noConfusion hv
  · unfold getPagesByCategory at hv
    by_cases hdb : jsTruthyS databaseId = true
    · rw [if_pos hdb] at hv
      exact cachedListing_blocks_empty databaseId _ now nowIso cache qr _
        (getPagesByCategoryFetch_ok databaseId qr nowIso) hcache v hv
    · rw [if_neg hdb] at hv
      exact Except.noConfusion hv
  · unfold searchPages at hv
    by_cases hblank : jsTrim query = ""
    · rw [if_pos hblank] at hv
      dsimp only at hv
      simp only [Except.ok.injEq] at hv
      rw [← hv]
      intro page hp
      exact absurd hp (List.not_mem_nil page)
    · rw [if_neg hblank] at hv
      dsimp only at hv
      cases hres : (getFormattedDatabase databaseId false "Public" now nowIso cache
          qr).result with
      | ok allPages =>
        simp only [hres, Except.ok.injEq] at hv
        rw [← hv]
        intro page hp
        have hmem := List.mem_filter.mp hp
        exact getFormattedDatabase_blocks_empty databaseId false "Public" now nowIso cache
          qr hcache allPages hres page hmem.1
      | error e =>
        simp only [hres] at hv
        exact Except.noConfusion hv

/-- A concrete raw page used to instantiate the C10 theorem. -/
def mockPageResponse : PageResponse :=
  ⟨"page-1", none, some "2024-01-01", some "2024-01-02",
    ⟨some [⟨"Title"⟩], some [⟨"slug-1"⟩], none, some "2024-01-03", none,
      some [⟨"t1", "blue"⟩], none, some "cat", some "Public", some [⟨"sum"⟩], none⟩⟩

/-- Closed instance of the C10 theorem: a database listing fetched on an
empty cache returns only block-less pages. -/
theorem listing_pages_have_no_blocks_witness :
    ∀ page ∈ formatPages [mockPageResponse] "2024-01-05",
      page.blocks = ([] : List NotionBlockWithChildren) :=
  listing_pages_have_no_blocks.2.1 (some "db") true "Public" 0 "2024-01-05" []
    (.ok [mockPageResponse]) (by simp [listingCacheOk])
    (formatPages [mockPageResponse] "2024-01-05") rfl

end NotionSite
